import Mathlib

/-!
# Verification of the refund-audit-log extraction pipeline

A shallow embedding, in Lean 4, of the extraction core of the
refund-audit-log application: the fixed-width AS400 log parser
(`as400_parser.py`), the pattern-based field extractor
(`ocr_processor.extract_data_from_text`), the strategy-cascade
orchestrators (`new_uploader.process_receipt_image`,
`safe_uploader.process_receipt_image_safe`), the AI-result normalizer
(`ai_processor.extract_item_numbers_with_ai`, JSON branch), the
upload handler's brute-force digit scan (`app.upload_file`), the
exporters' quantity parsing (`data_exporter.py`) and the training
store (`receipt_trainer.ReceiptTrainer`).

Strings are modelled as `List Char` (`Str`); Python's `re` patterns
used by the extractor are executed by a small backtracking matcher
over character-class atoms, which is exactly the fragment those
patterns use.  Effects (file I/O, OCR, the OpenAI call, wall-clock
timestamps) are threaded as explicit parameters, so all definitions
are executable and all properties decidable on concrete inputs.
-/

namespace RefundAudit

/-- Python strings, modelled as lists of characters. -/
abbrev Str := List Char

/-- Coerce a Lean string literal into the model. -/
def str (s : String) : Str := s.data

/-- Python `str.isdigit` on a single ASCII character (`0`-`9`).
Matches `\d` in the source's regexes (ASCII inputs). -/
def isDig (c : Char) : Bool := '0' ≤ c ∧ c ≤ '9'

/-- The characters Python `str.strip()` removes:
space, tab, newline, carriage return, vertical tab, form feed. -/
def isPySpace (c : Char) : Bool :=
  c = ' ' ∨ c = '\t' ∨ c = '\n' ∨ c = '\r' ∨ c = '\x0b' ∨ c = '\x0c'

/-- Python `str.strip()`: drop leading and trailing whitespace. -/
def pyStrip (s : Str) : Str :=
  (s.dropWhile isPySpace).reverse.dropWhile isPySpace |>.reverse

/-- Python `str.isdigit()`: non-empty and all digits. -/
def isDigitStr (s : Str) : Bool := s ≠ [] ∧ s.all isDig

/-- Python `str.zfill(n)`: left-pad with `'0'` to length `n`. -/
def zfill (n : Nat) (s : Str) : Str :=
  List.replicate (n - s.length) '0' ++ s

/-- Python `int(...)` on a string of decimal digits. -/
def decToNat (s : Str) : Nat :=
  s.foldl (fun a c => 10 * a + (c.toNat - '0'.toNat)) 0

/-- Python slicing `s[a:b]` (with `0 ≤ a ≤ b`). -/
def pySlice (s : Str) (a b : Nat) : Str := (s.drop a).take (b - a)

/-- Python `s.startswith(p)`. -/
def pyStartsWith (p s : Str) : Bool := s.take p.length = p

/-- Python `s.endswith(p)`. -/
def pyEndsWith (p s : Str) : Bool := pyStartsWith p.reverse s.reverse

/-- Python `s.split(sep)` for a one-character separator:
always returns at least one (possibly empty) piece. -/
def splitOnChar (sep : Char) : Str → List Str
  | [] => [[]]
  | c :: cs =>
    let rest := splitOnChar sep cs
    if c = sep then [] :: rest
    else match rest with
      | [] => [[c]]
      | r :: rs => (c :: r) :: rs

/-! ## Fixed-width AS400 log parser (`as400_parser.parse_as400_audit`)

The file is modelled as the list of its lines (what `for line in file`
iterates over, trailing newlines being removed by the `.strip()` calls
on every extracted slice). -/

/-- One parsed fixed-width audit entry (`as400_parser.py`, lines 29-43). -/
structure AuditLogEntry where
  recNo : Str
  trn : Str
  date : Str
  tracking : Str
  member : Str
  item : Str
  dept : Str
  qty : Str
  tender : Str
  saleable : Str
  refund : Str
  auditor : Str
  period : Str
  deriving DecidableEq, Repr

/-- The period derivation of `as400_parser.py` line 27:
`f"P{date_str[:2].zfill(2)}" if date_str[:2].isdigit() else "P00"`. -/
def as400Period (date_str : Str) : Str :=
  if isDigitStr (date_str.take 2) then 'P' :: zfill 2 (date_str.take 2) else str "P00"

/-- Field extraction for one qualifying line
(`as400_parser.py`, lines 26-43). -/
def as400Entry (line : Str) : AuditLogEntry :=
  let date_str := pyStrip (pySlice line 10 18)
  { recNo := pyStrip (pySlice line 0 4)
    trn := pyStrip (pySlice line 5 9)
    date := date_str
    tracking := pyStrip (pySlice line 19 32)
    member := pyStrip (pySlice line 33 47)
    item := pyStrip (pySlice line 48 59)
    dept := pyStrip (pySlice line 59 63)
    qty := pyStrip (pySlice line 64 66)
    tender := pyStrip (pySlice line 67 75)
    saleable := pyStrip (pySlice line 76 77)
    refund := pyStrip (pySlice line 78 79)
    auditor := pyStrip (line.drop 80)
    period := as400Period date_str }

/-- `as400_parser.parse_as400_audit`: skip each line whose stripped
length is `< 70`, parse the rest in order. -/
def parse_as400_audit (lines : List Str) : List AuditLogEntry :=
  lines.foldr (fun line acc =>
    if (pyStrip line).length < 70 then acc else as400Entry line :: acc) []

/-! ## Exporter quantity parsing (`data_exporter.py`)

`export_to_excel` (lines 48-55) and `export_to_google_sheets`
(lines 206-213) parse the raw quantity token with the same code. -/

/-- Quantity parsing shared by both exporters:
```
qty_raw = str(item.get('quantity', '1')).strip()
if qty_raw.endswith('-') and qty_raw[:-1].isdigit(): qty = int('-' + qty_raw[:-1])
elif qty_raw.isdigit(): qty = int(qty_raw)
else: qty = 1
``` -/
def exportQuantity (raw : Str) : Int :=
  let qty_raw := pyStrip raw
  if pyEndsWith (str "-") qty_raw ∧ isDigitStr qty_raw.dropLast then
    -(decToNat qty_raw.dropLast : Int)
  else if isDigitStr qty_raw then (decToNat qty_raw : Int)
  else 1

/-! ## A small backtracking regex matcher

The patterns used by `ocr_processor.py` and `app.py` only repeat
single-character classes (`\d+`, `\s*`, `.*?`, `\d{2,4}`, `:?`,
`\d{6,8}`), so a repetition node over a character predicate, with the
standard candidate orders (greedy: longest first; lazy: shortest
first) and most-recent-first backtracking, reproduces Python `re`
exactly on this fragment.  `re.search` is leftmost-match;
`re.findall` returns non-overlapping matches left to right (none of
these patterns can match the empty string). -/

/-- Regex abstract syntax: literals (optionally case-insensitive),
bounded/unbounded repetition of a character class, capture groups
and binary sequencing (with `eps` as the unit). -/
inductive RE where
  | eps
  | lit (s : Str) (ci : Bool)
  | rep (p : Char → Bool) (lo : Nat) (hi : Option Nat) (lazyRep : Bool)
  | grp (i : Nat) (r : RE)
  | seq (a b : RE)

/-- Sequence a list of regexes. -/
def reSeq (rs : List RE) : RE := rs.foldr RE.seq RE.eps

/-- Character comparison, optionally case-insensitive (ASCII). -/
def charEq (ci : Bool) (a b : Char) : Bool :=
  if ci then a.toLower = b.toLower else a = b

/-- Strip a literal prefix (optionally case-insensitively). -/
def litMatch (ci : Bool) : Str → Str → Option Str
  | [], s => some s
  | _ :: _, [] => none
  | p :: ps, c :: cs => if charEq ci p c then litMatch ci ps cs else none

/-- The candidate repetition counts, in the order a backtracking
engine tries them: greedy from `hi` down to `lo`, lazy from `lo` up
to `hi`. -/
def repCands (lo hi : Nat) (lazyRep : Bool) : List Nat :=
  if lo ≤ hi then
    let asc := List.range' lo (hi - lo + 1)
    if lazyRep then asc else asc.reverse
  else []

/-- Backtracking matcher in continuation style.  `mtch r s gs k`
tries to match `r` against a prefix of `s` given captured groups
`gs`, calling `k` on the remainder; the first success (in engine
order) wins. -/
def mtch : RE → Str → List (Nat × Str) →
    (Str → List (Nat × Str) → Option (Str × List (Nat × Str))) →
    Option (Str × List (Nat × Str))
  | .eps, s, gs, k => k s gs
  | .lit l ci, s, gs, k =>
    match litMatch ci l s with
    | none => none
    | some rest => k rest gs
  | .rep p lo hi lazyRep, s, gs, k =>
    let run := (s.takeWhile p).length
    (repCands lo (min run (hi.getD run)) lazyRep).findSome? fun j => k (s.drop j) gs
  | .grp i r, s, gs, k =>
    mtch r s gs fun rest gs₁ => k rest ((i, s.take (s.length - rest.length)) :: gs₁)
  | .seq a b, s, gs, k =>
    mtch a s gs fun rest gs₁ => mtch b rest gs₁ k

/-- Try to match `re` anchored at the start of `s`; on success return
the number of characters consumed and the captured groups. -/
def reMatchAt (re : RE) (s : Str) : Option (Nat × List (Nat × Str)) :=
  (mtch re s [] fun rest gs => some (rest, gs)).map
    fun r => (s.length - r.1.length, r.2)

/-- `re.search`: leftmost match, returning consumed length and groups. -/
def reSearch (re : RE) : Str → Option (Nat × List (Nat × Str))
  | [] => reMatchAt re []
  | c :: cs =>
    match reMatchAt re (c :: cs) with
    | some r => some r
    | none => reSearch re cs

/-- `re.findall` worker: non-overlapping matches, left to right,
fuelled so the recursion is structural (hence kernel-reducible).
Every step either drops one character or a whole non-empty match, so
the string shrinks by at least one per step and an initial fuel of
`s.length` never runs out.  (All the patterns fed to this require at
least one character, so the zero-length guard is never taken.) -/
def reScanAux (re : RE) : Nat → Str → List (Str × List (Nat × Str))
  | 0, _ => []
  | _, [] => []
  | fuel + 1, c :: cs =>
    match reMatchAt re (c :: cs) with
    | none => reScanAux re fuel cs
    | some (len, gs) =>
      if len = 0 then reScanAux re fuel cs
      else ((c :: cs).take len, gs) :: reScanAux re fuel ((c :: cs).drop len)

/-- `re.findall`: non-overlapping matches, left to right. -/
def reScan (re : RE) (s : Str) : List (Str × List (Nat × Str)) :=
  reScanAux re s.length s

/-- Captured group `i`, `""` when unset. -/
def reGroup (gs : List (Nat × Str)) (i : Nat) : Str := (gs.lookup i).getD []

/-- `re.findall` when the whole pattern is one group: the matched texts. -/
def findall (re : RE) (s : Str) : List Str := (reScan re s).map (·.1)

/-- `re.search(...).group(1)`, `none` when there is no match. -/
def search1 (re : RE) (s : Str) : Option Str :=
  (reSearch re s).map fun r => reGroup r.2 1

/-- `re.search` returning `(group(1), group(2))`. -/
def search12 (re : RE) (s : Str) : Option (Str × Str) :=
  (reSearch re s).map fun r => (reGroup r.2 1, reGroup r.2 2)

/-- First occurrence index of `needle` in a string (Python `find`
restricted to the found case). -/
def strFind? (needle : Str) : Str → Option Nat
  | [] => if needle = [] then some 0 else none
  | c :: cs =>
    if pyStartsWith needle (c :: cs) then some 0
    else (strFind? needle cs).map (· + 1)

/-- Python `hay.find(needle)`: index of first occurrence, `-1` if absent. -/
def pyFind (hay needle : Str) : Int := ((strFind? needle hay).map Int.ofNat).getD (-1)

/-- Python `needle in hay` (substring containment). -/
def containsSubstr (needle hay : Str) : Bool := (strFind? needle hay).isSome

/-! ## The patterns of `ocr_processor.extract_data_from_text` -/

/-- `.` in a Python pattern without `re.DOTALL`: any character but a newline. -/
def anyNotNL (c : Char) : Bool := c ≠ '\n'

/-- `\d{2}` -/
def dd : RE := .rep isDig 2 (some 2) false

/-- `\d{2}/\d{2}/\d{2,4}` -/
def dateCore : RE :=
  reSeq [dd, .lit (str "/") false, dd, .lit (str "/") false, .rep isDig 2 (some 4) false]

/-- `\d+\.\d{2}` -/
def priceCore : RE := reSeq [.rep isDig 1 none false, .lit (str ".") false, dd]

/-- `Date:?\s*(\d{2}/\d{2}/\d{2,4})` (`ci` = searched with `re.IGNORECASE`). -/
def datePat (ci : Bool) : RE :=
  reSeq [.lit (str "Date") ci, .rep (fun c => c = ':') 0 (some 1) false,
        .rep isPySpace 0 none false, .grp 1 dateCore]

/-- `(\d{2}/\d{2}/\d{2,4})` -/
def genericDatePat : RE := .grp 1 dateCore

/-- `(\d{6,8})` — `item_pattern` of lines 412 and 468. -/
def item68Pat : RE := .grp 1 (.rep isDig 6 (some 8) false)

/-- `(\d+\.\d{2})` — `price_pattern`. -/
def pricePat : RE := .grp 1 priceCore

/-- `(\d{2}:\d{2}:\d{2})` — `time_pattern`. -/
def timePat : RE :=
  .grp 1 (reSeq [dd, .lit (str ":") false, dd, .lit (str ":") false, dd])

/-- `Member#:\s*(\d+).*?(\d+\.\d{2})` — `member_line_pattern` (line 312). -/
def memberPat : RE :=
  reSeq [.lit (str "Member#:") false, .rep isPySpace 0 none false,
        .grp 1 (.rep isDig 1 none false), .rep anyNotNL 0 none true, .grp 2 priceCore]

/-- `Operator ID:\s*(\d+).*?(\d+\.\d{2})` — `operator_line_pattern` (line 313). -/
def operatorPat : RE :=
  reSeq [.lit (str "Operator ID:") false, .rep isPySpace 0 none false,
        .grp 1 (.rep isDig 1 none false), .rep anyNotNL 0 none true, .grp 2 priceCore]

/-- `Member#:\s*\d+\s*(.*?)\s*\d+\.\d{2}` — the description pattern of line 328. -/
def memberDescPat : RE :=
  reSeq [.lit (str "Member#:") false, .rep isPySpace 0 none false,
        .rep isDig 1 none false, .rep isPySpace 0 none false,
        .grp 1 (.rep anyNotNL 0 none true), .rep isPySpace 0 none false,
        .rep isDig 1 none false, .lit (str ".") false, dd]

/-- `Operator ID:\s*\d+\s*(.*?)\s*\d+\.\d{2}` — the description pattern of line 364. -/
def operatorDescPat : RE :=
  reSeq [.lit (str "Operator ID:") false, .rep isPySpace 0 none false,
        .rep isDig 1 none false, .rep isPySpace 0 none false,
        .grp 1 (.rep anyNotNL 0 none true), .rep isPySpace 0 none false,
        .rep isDig 1 none false, .lit (str ".") false, dd]

/-! ## `ocr_processor.extract_data_from_text` -/

/-- A record produced by the pattern-based field extractor — the dict
built at `ocr_processor.py` lines 346-352/453-459/495-501/507-513.
`period` is the optional `'period'` key, set only by the final loop
(lines 519-527); `price` is optional because the dict stores whatever
`closest_price` holds.  Every consumer reads the period with
`.get('period', ...)`, i.e. `period.getD`. -/
structure OcrItem where
  item_number : Str
  price : Option Str
  date : Str
  time : Str
  description : Str
  period : Option Str := none
  deriving DecidableEq, Repr

/-- Wall-clock inputs of `extract_data_from_text`:
`datetime.now().strftime('%m/%d/%y')` and `...('%H:%M:%S')`,
used only for the hard-coded default item. -/
structure Now where
  dateStr : Str
  timeStr : Str
  deriving DecidableEq, Repr

/-- Lines 290-307: the report date is the first labeled
`Date: mm/dd/yy(yy)` match in the first ten lines (case-insensitive),
else the first bare date match there. -/
def findReportDate (lines : List Str) : Option Str :=
  match (lines.take 10).findSome? (fun l => search1 (datePat true) l) with
  | some d => some d
  | none => (lines.take 10).findSome? (fun l => search1 genericDatePat l)

/-- State threaded through the extraction passes:
`processed_items` (the de-duplication set, as the list of item
numbers added so far) and the accumulated `items`. -/
abbrev ExtractState := List Str × List OcrItem

/-- One first-pass block (lines 321-354 for `Member#`, lines 357-390
for `Operator ID`): on a pattern match, extract description, date and
time from the same line and append the record unless the item number
was already processed. -/
def tierAItem (labelPat descPat : RE) (report_date : Option Str) (line : Str)
    (st : ExtractState) : ExtractState :=
  match search12 labelPat line with
  | none => st
  | some (item_number, price) =>
    let description := ((search1 descPat line).map pyStrip).getD []
    let item_date :=
      match search1 (datePat false) line with
      | some d => some d
      | none => report_date
    let time_value := (search1 timePat line).getD []
    if item_number ∈ st.1 then st
    else (item_number :: st.1,
          st.2 ++ [{ item_number := item_number, price := some price,
                     date := item_date.getD [], time := time_value,
                     description :=
                       if description = [] then str "Item " ++ item_number
                       else description }])

/-- First pass over one line: the `Member#` block, then the
`Operator ID` block (lines 319-390). -/
def tierALine (report_date : Option Str) (st : ExtractState) (line : Str) : ExtractState :=
  tierAItem operatorPat operatorDescPat report_date line
    (tierAItem memberPat memberDescPat report_date line st)

/-- First pass over all lines. -/
def tierA (report_date : Option Str) (lines : List Str) : ExtractState :=
  lines.foldl (tierALine report_date) ([], [])

/-- Lines 432-442: among the prices found on the line, the one whose
first occurrence is at minimum character distance from the item
number's first occurrence (strictly closer replaces; ties keep the
earlier price). -/
def closestPrice (line : Str) (item_pos : Int) (prices : List Str) : Option Str :=
  (prices.foldl (fun best price =>
      let dist := (pyFind line price - item_pos).natAbs
      match best with
      | none => some (price, dist)
      | some pb => if dist < pb.2 then some (price, dist) else best)
    (none : Option (Str × Nat))).map (·.1)

/-- Second pass over one line (lines 416-461): skip lines shorter
than 20 characters; on lines with both a 6-8 digit run and a price,
pair each new item number with the closest price. -/
def tierBLine (report_date : Option Str) (st : ExtractState) (line : Str) : ExtractState :=
  if line.length < 20 then st
  else
    let item_matches := findall item68Pat line
    let price_matches := findall pricePat line
    if item_matches = [] ∨ price_matches = [] then st
    else
      item_matches.foldl (fun st item_number =>
        if item_number ∈ st.1 then st
        else
          let item_pos := pyFind line item_number
          let closest_price := closestPrice line item_pos price_matches
          let time_value := (search1 timePat line).getD []
          (item_number :: st.1,
           st.2 ++ [{ item_number := item_number, price := closest_price,
                      date := report_date.getD [], time := time_value,
                      description := str "Item " ++ item_number }])) st

/-- Second pass over all lines. -/
def tierB (report_date : Option Str) (lines : List Str) (st : ExtractState) : ExtractState :=
  lines.foldl (tierBLine report_date) st

/-- Third pass (lines 464-502): collect all item numbers, prices and
times from the whole text and pair them by index, up to
`min(len(items), len(prices), 50)`.  (The `i >= len(all_items)`
break of line 478 cannot fire because `count ≤ len(all_items)`;
it is modelled as a skip.) -/
def tierC (report_date : Option Str) (text : Str) (st : ExtractState) : ExtractState :=
  let all_items := findall item68Pat text
  let all_prices := findall pricePat text
  let all_times := findall timePat text
  let count := min (min all_items.length all_prices.length) 50
  (List.range count).foldl (fun st i =>
    if all_items.length ≤ i then st
    else
      let item_number := all_items.getD i []
      if item_number ∈ st.1 then st
      else
        let price :=
          if i < all_prices.length then all_prices.getD i [] else all_prices.getD 0 []
        let time_value := if i < all_times.length then all_times.getD i [] else []
        (item_number :: st.1,
         st.2 ++ [{ item_number := item_number, price := some price,
                    date := report_date.getD [], time := time_value,
                    description := str "Item " ++ item_number }])) st

/-- The hard-coded default item of lines 507-513. -/
def mkDefaultItem (now : Now) : OcrItem :=
  { item_number := str "12345678", price := some (str "0.00"),
    date := now.dateStr, time := now.timeStr,
    description := str "No data extracted from image" }

/-- The period derivation loop body (lines 397-404 and 520-527):
when the date is non-empty and contains `/` and its leading
`split('/')` token is numeric, set `period` to `P` + the token
zero-padded to two digits; otherwise leave the record unchanged. -/
def assignPeriod (it : OcrItem) : OcrItem :=
  if it.date ≠ [] ∧ '/' ∈ it.date then
    let month := it.date.takeWhile (fun c => c ≠ '/')
    if isDigitStr month then { it with period := some ('P' :: zfill 2 month) } else it
  else it

/-- The period derivation loop. -/
def assignPeriods (items : List OcrItem) : List OcrItem := items.map assignPeriod

/-- The three extraction passes of `extract_data_from_text`, before
the default item and the period loop: the first pass's result is
returned as soon as it is non-empty (the early return of line 406);
otherwise the second pass runs, and the third only when the second
found nothing (line 464), both against the same `processed_items`
set.  Passes run over the lines of the stripped text; the third pass
scans the original `text` (lines 468-470). -/
def extractTiers (text : Str) : List OcrItem :=
  let lines := splitOnChar '\n' (pyStrip text)
  let report_date := findReportDate lines
  let stA := tierA report_date lines
  if stA.2 ≠ [] then stA.2
  else
    let stB := tierB report_date lines stA
    if stB.2 = [] then (tierC report_date text stB).2 else stB.2

/-- `ocr_processor.extract_data_from_text`: the three passes, the
default item when everything came up empty (lines 504-513), then the
period loop (lines 519-527; the identical loop at 397-404 guards the
early return and is subsumed by applying it to the returned list). -/
def extract_data_from_text (now : Now) (text : Str) : List OcrItem :=
  let items := extractTiers text
  assignPeriods (if items = [] then [mkDefaultItem now] else items)

/-! ## AI result normalization (`ai_processor.extract_item_numbers_with_ai`)

Lines 103-119: each item of the parsed JSON is read through
`item.get(key, "")` and normalized; the item number is cleaned and
items whose cleaned number is empty are dropped. -/

/-- One JSON item as the normalizer reads it — the values of the
`item.get("item_number"/"price"/"date"/"time", "")` accesses
(a key that is absent or not a string is out of the model's scope;
absent keys read as `""`). -/
structure RawAiItem where
  item_number : Str
  price : Str
  date : Str
  time : Str
  deriving DecidableEq, Repr

/-- A normalized AI item (the dict of lines 106-112). -/
structure AiRec where
  item_number : Str
  price : Str
  date : Str
  time : Str
  period : Str
  deriving DecidableEq, Repr

/-- The character class kept by `re.sub(r'[^A-Za-z0-9\-]', '', ...)`. -/
def isAlnumDash (c : Char) : Bool :=
  ('A' ≤ c ∧ c ≤ 'Z') ∨ ('a' ≤ c ∧ c ≤ 'z') ∨ isDig c ∨ c = '-'

/-- Line 115: strip every character that is not an ASCII letter,
digit or dash. -/
def cleanItemNumber (s : Str) : Str := s.filter isAlnumDash

/-- Lines 104-119: normalize each item, clean its item number, keep
only items whose cleaned number is non-empty. -/
def aiNormalize (items : List RawAiItem) : List AiRec :=
  items.foldl (fun result item =>
    let cleaned := cleanItemNumber item.item_number
    if cleaned ≠ [] then
      result ++ [{ item_number := cleaned, price := item.price,
                   date := item.date, time := item.time, period := str "P00" }]
    else result) []

/-! ## The upload handler's brute-force digit scan (`app.upload_file`)

Lines 165-236 of `app.py`: after OCR, the handler itself scans the
recognized text for word-bounded digit runs and filters them. -/

/-- Python `\w` (ASCII): letters, digits, underscore. -/
def isWordChar (c : Char) : Bool :=
  ('A' ≤ c ∧ c ≤ 'Z') ∨ ('a' ≤ c ∧ c ≤ 'z') ∨ isDig c ∨ c = '_'

/-- Worker for `wordRuns`, fuelled like `reScanAux` (a run found at
the head is non-empty, so `s.length` fuel never runs out). -/
def wordRunsAux : Nat → Str → List Str
  | 0, _ => []
  | _, [] => []
  | fuel + 1, c :: cs =>
    if isWordChar c then
      let run := (c :: cs).takeWhile isWordChar
      run :: wordRunsAux fuel ((c :: cs).drop run.length)
    else wordRunsAux fuel cs

/-- The maximal runs of word characters of a string, in order. -/
def wordRuns (s : Str) : List Str := wordRunsAux s.length s

/-- `re.findall(r'\b\d{7,8}\b', text)`: with word boundaries on both
sides and a greedy bounded repeat that cannot stop inside a digit
run, the matches are exactly the maximal word-character runs that
consist solely of digits and have length 7 or 8. -/
def findall78b (text : Str) : List Str :=
  (wordRuns text).filter fun r => r.all isDig ∧ (r.length = 7 ∨ r.length = 8)

/-- `re.findall(r'\b\d{6}\b', text)`, likewise: the maximal
word-character runs of exactly 6 digits. -/
def findall6b (text : Str) : List Str :=
  (wordRuns text).filter fun r => r.all isDig ∧ r.length = 6

/-- The label words of `app.py` line 203. -/
def labelPrefixes : List Str :=
  [str "register", str "transaction", str "receipt", str "order"]

/-- Lines 202-211: skip a match when some label word occurs in the
lowercased text less than 30 characters before the match's first
occurrence. -/
def skipByLabel (extracted_text : Str) (m : Str) : Bool :=
  labelPrefixes.any fun p =>
    let prefix_pos := pyFind (extracted_text.map Char.toLower) p
    let match_pos := pyFind extracted_text m
    0 ≤ prefix_pos ∧ 0 ≤ match_pos ∧
      0 < match_pos - prefix_pos ∧ match_pos - prefix_pos < 30

/-- The filtering loop of lines 181-223: stop after examining 50
matches or keeping 10; skip 8-digit matches starting with `19`/`20`,
matches starting with `0`, and label-adjacent matches. -/
def filterMatches (extracted_text : Str) : List Str → Nat → List Str → List Str
  | [], _, acc => acc
  | m :: rest, cnt, acc =>
    if cnt + 1 > 50 then acc
    else if m.length = 8 ∧ (pyStartsWith (str "19") m ∨ pyStartsWith (str "20") m) then
      filterMatches extracted_text rest (cnt + 1) acc
    else if pyStartsWith (str "0") m then filterMatches extracted_text rest (cnt + 1) acc
    else if skipByLabel extracted_text m then filterMatches extracted_text rest (cnt + 1) acc
    else
      let acc := acc ++ [m]
      if 10 ≤ acc.length then acc
      else filterMatches extracted_text rest (cnt + 1) acc

/-- `list(dict.fromkeys(...))`: de-duplicate keeping first occurrences. -/
def dedupFirst : List Str → List Str :=
  go []
where
  go (seen : List Str) : List Str → List Str
    | [] => []
    | x :: xs => if x ∈ seen then go seen xs else x :: go (x :: seen) xs

/-- `app.upload_file` lines 165-236: the item numbers the upload
handler derives from the OCR text — 7-8 digit matches first, then
6-digit ones, filtered, de-duplicated, capped at 10. -/
def uploadItemNumbers (extracted_text : Str) : List Str :=
  let primary_matches := findall78b extracted_text
  let secondary_matches := findall6b extracted_text
  let allMatches := primary_matches ++ secondary_matches
  let filtered_matches := filterMatches extracted_text allMatches 0 []
  let item_numbers := dedupFirst filtered_matches
  if 10 < item_numbers.length then item_numbers.take 10 else item_numbers

/-! ## The strategy cascades

`new_uploader.process_receipt_image` (lines 51-152) and
`safe_uploader.process_receipt_image_safe` (lines 59-129), modelled
from the point where the upload has been saved and verified.  Each
strategy call's outcome is an explicit parameter: it returned a
value, raised an exception, or was interrupted by the
`SIGALRM`-driven `TimeoutException`.  In `process_receipt_image` the
AI call sits inside `try ... except Exception`, so an exception or a
timeout raised there is swallowed and the cascade advances; an
exception from a later strategy escapes to the outer
`except Exception` handler, and a timeout there is caught by the
inner `except TimeoutException` handler. -/

/-- Outcome of calling one strategy. -/
inductive SOut (α : Type) where
  | exn (msg : Str)
  | timeout
  | ok (v : α)

/-- The canonical item record the orchestrators build
(`new_uploader.py` lines 69-78/102-111, `safe_uploader.py` lines
74-83/105-114). -/
structure ItemRecord where
  item_number : Str
  price : Str
  period : Str
  date : Str
  time : Str
  description : Str
  quantity : Int
  exception : Str
  deriving DecidableEq, Repr

/-- The heterogeneous record batches a cascade can return, tagged by
the strategy that produced them. -/
inductive CascadeData where
  | ai (rs : List ItemRecord)
  | direct (rs : List ItemRecord)
  | ocr (rs : List OcrItem)
  | quick (rs : List OcrItem)
  deriving DecidableEq, Repr

/-- The strategies, for the execution trace. -/
inductive Strategy where
  | ai | direct | ocr | quick
  deriving DecidableEq, Repr

/-- A cascade run: the `(success, data-or-message)` tuple the Python
functions return, plus the list of strategies whose calls were
reached (the call-count instrumentation the spec appeals to). -/
structure CascadeRun where
  success : Bool
  result : CascadeData ⊕ Str
  executed : List Strategy
  deriving DecidableEq, Repr

/-- `f"{n:02d}"` for a natural number. -/
def fmt02 (n : Nat) : Str := zfill 2 (Nat.toDigits 10 n)

/-- `"Processing timed out. Please try a clearer image or smaller file"` -/
def timeoutMsg : Str := str "Processing timed out. Please try a clearer image or smaller file"

/-- `"No item numbers could be extracted from the image"` -/
def noExtractMsg : Str := str "No item numbers could be extracted from the image"

/-- `f"Error processing file: {e}"` -/
def errProcessingMsg (e : Str) : Str := str "Error processing file: " ++ e

/-- AI-result formatting of `new_uploader.py` lines 63-79
(`description` is the empty string, quantity 1). -/
def formatAiItems (month : Nat) (items : List AiRec) : List ItemRecord :=
  items.map fun it =>
    { item_number := it.item_number, price := it.price,
      period := 'P' :: fmt02 month, date := it.date, time := it.time,
      description := [], quantity := 1, exception := [] }

/-- Direct-result formatting of `new_uploader.py` lines 96-112
(the direct strategy yields bare item-number strings). -/
def formatDirectItems (month : Nat) (items : List Str) : List ItemRecord :=
  items.map fun n =>
    { item_number := n, price := str "0.00",
      period := 'P' :: fmt02 month, date := [], time := [],
      description := [], quantity := 1, exception := [] }

/-- Strategy 4 of `process_receipt_image` (lines 130-145): quick OCR
text, extraction, else the failure tuple. -/
def cascadeQuick (now : Now) (quickOut : SOut Str) (executed : List Strategy) : CascadeRun :=
  match quickOut with
  | .exn e => ⟨false, .inr (errProcessingMsg e), executed ++ [.quick]⟩
  | .timeout => ⟨false, .inr timeoutMsg, executed ++ [.quick]⟩
  | .ok quick_text =>
    if quick_text ≠ [] ∧ ¬ pyStartsWith (str "Error:") quick_text then
      let quick_data := extract_data_from_text now quick_text
      if quick_data ≠ [] then ⟨true, .inl (.quick quick_data), executed ++ [.quick]⟩
      else ⟨false, .inr noExtractMsg, executed ++ [.quick]⟩
    else ⟨false, .inr noExtractMsg, executed ++ [.quick]⟩

/-- Strategy 3 of `process_receipt_image` (lines 117-128): the full
OCR text is used when non-empty and free of `"Error"`. -/
def cascadeOcr (now : Now) (ocrOut quickOut : SOut Str) (executed : List Strategy) : CascadeRun :=
  match ocrOut with
  | .exn e => ⟨false, .inr (errProcessingMsg e), executed ++ [.ocr]⟩
  | .timeout => ⟨false, .inr timeoutMsg, executed ++ [.ocr]⟩
  | .ok extracted_text =>
    if extracted_text ≠ [] ∧ ¬ containsSubstr (str "Error") extracted_text then
      let extracted_data := extract_data_from_text now extracted_text
      if extracted_data ≠ [] then ⟨true, .inl (.ocr extracted_data), executed ++ [.ocr]⟩
      else cascadeQuick now quickOut (executed ++ [.ocr])
    else cascadeQuick now quickOut (executed ++ [.ocr])

/-- Strategy 2 of `process_receipt_image` (lines 89-115). -/
def cascadeDirect (month : Nat) (now : Now) (directOut : SOut (List Str))
    (ocrOut quickOut : SOut Str) (executed : List Strategy) : CascadeRun :=
  match directOut with
  | .exn e => ⟨false, .inr (errProcessingMsg e), executed ++ [.direct]⟩
  | .timeout => ⟨false, .inr timeoutMsg, executed ++ [.direct]⟩
  | .ok direct_results =>
    if direct_results ≠ [] then
      ⟨true, .inl (.direct (formatDirectItems month direct_results)), executed ++ [.direct]⟩
    else cascadeOcr now ocrOut quickOut (executed ++ [.direct])

/-- `new_uploader.process_receipt_image`, from line 51 (file already
saved and non-empty): AI first — exceptions and timeouts there are
swallowed by its `except Exception` clause — then direct extraction,
full OCR, quick OCR, else the failure tuple.  `month` is
`int(os.popen('date +%m')...)`. -/
def process_receipt_image (month : Nat) (now : Now) (aiOut : SOut (List AiRec))
    (directOut : SOut (List Str)) (ocrOut quickOut : SOut Str) : CascadeRun :=
  match aiOut with
  | .ok ai_results =>
    if ai_results ≠ [] then
      ⟨true, .inl (.ai (formatAiItems month ai_results)), [.ai]⟩
    else cascadeDirect month now directOut ocrOut quickOut [.ai]
  | _ => cascadeDirect month now directOut ocrOut quickOut [.ai]

/-- AI-result formatting of `safe_uploader.py` lines 68-84: the
normalized AI items carry no `description` key, so
`item.get('description', 'AI Extracted')` always yields the default. -/
def formatAiItemsSafe (month : Nat) (items : List AiRec) : List ItemRecord :=
  items.map fun it =>
    { item_number := it.item_number, price := it.price,
      period := 'P' :: fmt02 month, date := it.date, time := it.time,
      description := str "AI Extracted", quantity := 1, exception := [] }

/-- A record returned by `direct_processor.direct_process`, as read
by `safe_uploader` (`item.get` of `item_number`, `price`, `date`,
`time`; its `description`/`confidence`/`period` keys are unused). -/
structure DirRec where
  item_number : Str
  price : Str
  date : Str
  time : Str
  deriving DecidableEq, Repr

/-- Direct-result formatting of `safe_uploader.py` lines 99-115
(hard-coded description and exception). -/
def formatDirectItemsSafe (month : Nat) (items : List DirRec) : List ItemRecord :=
  items.map fun it =>
    { item_number := it.item_number, price := it.price,
      period := 'P' :: fmt02 month, date := it.date, time := it.time,
      description := str "Emergency fallback - No OCR/AI data available",
      quantity := 1, exception := str "Failed to extract with primary methods" }

/-- `safe_uploader.process_receipt_image_safe`, from line 59: AI
(exceptions and timeouts swallowed by `except Exception`), then
direct processing, else the failure tuple.  `month` is
`datetime.now().month`. -/
def process_receipt_image_safe (month : Nat) (aiOut : SOut (List AiRec))
    (directOut : SOut (List DirRec)) : CascadeRun :=
  let after_ai : CascadeRun :=
    match directOut with
    | .exn e => ⟨false, .inr (errProcessingMsg e), [.ai, .direct]⟩
    | .timeout => ⟨false, .inr timeoutMsg, [.ai, .direct]⟩
    | .ok safe_results =>
      if safe_results ≠ [] then
        ⟨true, .inl (.direct (formatDirectItemsSafe month safe_results)), [.ai, .direct]⟩
      else ⟨false, .inr noExtractMsg, [.ai, .direct]⟩
  match aiOut with
  | .ok ai_results =>
    if ai_results ≠ [] then
      ⟨true, .inl (.ai (formatAiItemsSafe month ai_results)), [.ai]⟩
    else after_ai
  | _ => after_ai

/-! ## The training store (`receipt_trainer.ReceiptTrainer`)

`self.training_data` is the state; saving rewrites the whole file, so
the persisted store follows the in-memory dict.  File existence, OCR
text, image dimensions, timestamps and the save outcome are
parameters.  Fractional region coordinates (Python float divisions
`y/height` etc.) are kept as numerator/denominator pairs; nothing in
the claims depends on their values. -/

/-- `TrainingExample` (lines 69-74). -/
structure TrainingExample where
  item_number : Str
  image_path : Str
  description : Str
  added_at : Str
  deriving DecidableEq, Repr

/-- `TrainedPattern` (lines 96-100). -/
structure TrainedPattern where
  ptype : Str
  value : Str
  added_at : Str
  deriving DecidableEq, Repr

/-- A fraction of the image size, kept un-divided. -/
structure Frac where
  num : Nat
  den : Nat
  deriving DecidableEq, Repr

/-- `relative_coords` (lines 196-201). -/
structure RelCoords where
  top : Frac
  left : Frac
  width : Frac
  height : Frac
  deriving DecidableEq, Repr

/-- `TrainedRegion` (lines 120-124). -/
structure TrainedRegion where
  name : Str
  location : RelCoords
  added_at : Str
  deriving DecidableEq, Repr

/-- The `training_data` dict (lines 38-41). -/
structure TrainingData where
  examples : List TrainingExample
  patterns : List TrainedPattern
  regions : List TrainedRegion
  created_at : Str
  deriving DecidableEq, Repr

/-- `ReceiptTrainer.add_example` (lines 54-85): no mutation when the
image file is missing; otherwise append and save (the save result is
the returned flag; a failed save does not roll the append back). -/
def add_example (fileExists : Bool) (nowIso : Str) (item_number image_path : Str)
    (description : Option Str) (saveOk : Bool) (d : TrainingData) : TrainingData × Bool :=
  if ¬ fileExists then (d, false)
  else
    ({ d with examples := d.examples ++
        [{ item_number := item_number, image_path := image_path,
           description := description.getD (str "Example for " ++ item_number),
           added_at := nowIso }] }, saveOk)

/-- `ReceiptTrainer.add_pattern` (lines 87-109). -/
def add_pattern (nowIso : Str) (pattern_type pattern_value : Str) (saveOk : Bool)
    (d : TrainingData) : TrainingData × Bool :=
  ({ d with patterns := d.patterns ++
      [{ ptype := pattern_type, value := pattern_value, added_at := nowIso }] }, saveOk)

/-- `ReceiptTrainer.add_region` (lines 111-133). -/
def add_region (nowIso : Str) (region_name : Str) (region_location : RelCoords)
    (saveOk : Bool) (d : TrainingData) : TrainingData × Bool :=
  ({ d with regions := d.regions ++
      [{ name := region_name, location := region_location, added_at := nowIso }] }, saveOk)

/-- The four fixed horizontal bands of lines 172-177
(`int(height*0.25)` etc. are exact in floating point, hence the `Nat`
divisions), as `(name, x, y, w, h)`. -/
def analyzeBands (height width : Nat) : List (Str × Nat × Nat × Nat × Nat) :=
  [(str "top", 0, 0, width, height / 4),
   (str "upper_middle", 0, height / 4, width, height / 2),
   (str "lower_middle", 0, height / 2, width, 3 * height / 4),
   (str "bottom", 0, 3 * height / 4, width, height)]

/-- Python `s.replace(old, "")` for a single character. -/
def removeChar (c : Char) (s : Str) : Str := s.filter fun x => x ≠ c

/-- The region-loop body of `analyze_receipt_for_training` (lines
182-211): `bt` pairs a band with its OCR text; a region is
auto-added when the band's whitespace-stripped text contains the
item number. -/
def analyzeRegionStep (nowIso nowCompact : Str) (saveOk : Bool) (item_number : Str)
    (height width : Nat) (d : TrainingData)
    (bt : (Str × Nat × Nat × Nat × Nat) × Str) : TrainingData :=
  let (name, x, y, w, h) := bt.1
  let is_present :=
    containsSubstr item_number (removeChar '\n' (removeChar ' ' bt.2))
  if is_present then
    (add_region nowIso (str "auto_" ++ name ++ str "_" ++ nowCompact)
      { top := ⟨y, height⟩, left := ⟨x, width⟩,
        width := ⟨w, width⟩, height := ⟨h, height⟩ } saveOk d).1
  else d

/-- `if chars: self.add_pattern(ptype, chars)` (lines 230-250). -/
def maybeAddPattern (nowIso : Str) (ptype chars : Str) (saveOk : Bool)
    (d : TrainingData) : TrainingData :=
  if chars ≠ [] then (add_pattern nowIso ptype chars saveOk d).1 else d

/-- The pattern-loop body of `analyze_receipt_for_training` (lines
220-250): on a line containing the item number, up to three
characters before and after the match become prefix/suffix patterns. -/
def analyzePatternStep (nowIso : Str) (saveOk : Bool) (item_number : Str)
    (d : TrainingData) (line : Str) : TrainingData :=
  let clean_line := removeChar ' ' line
  if containsSubstr item_number clean_line then
    let idx := (strFind? item_number clean_line).getD 0
    let chars_before :=
      if 0 < idx then ((clean_line.take idx).reverse.take 3).reverse else []
    let chars_after :=
      if idx + item_number.length < clean_line.length then
        (clean_line.drop (idx + item_number.length)).take 3
      else []
    maybeAddPattern nowIso (str "suffix") chars_after saveOk
      (maybeAddPattern nowIso (str "prefix") chars_before saveOk d)
  else d

/-- `ReceiptTrainer.analyze_receipt_for_training` (lines 145-265),
with the OCR results passed in: `bandTexts` are the
`pytesseract.image_to_string` results for the four bands in order,
`allText` the whole-image pass.  For each band whose
whitespace-stripped text contains the item number, a region is
auto-added; each line of `allText` containing the number contributes
up to one prefix and one suffix pattern; finally the example itself
is appended.  Returns the updated store. -/
def analyze_receipt_for_training (fileExists imgOk : Bool) (height width : Nat)
    (bandTexts : List Str) (allText : Str) (nowIso nowCompact : Str) (saveOk : Bool)
    (item_number image_path : Str) (d : TrainingData) : TrainingData :=
  if ¬ fileExists then d
  else if ¬ imgOk then d
  else
    let d1 := ((analyzeBands height width).zip bandTexts).foldl
      (analyzeRegionStep nowIso nowCompact saveOk item_number height width) d
    let d2 := (splitOnChar '\n' allText).foldl
      (analyzePatternStep nowIso saveOk item_number) d1
    (add_example fileExists nowIso item_number image_path
      (some (str "Auto-analyzed example")) saveOk d2).1

/-! # Properties -/

/-! ## Shared helper lemmas -/

/-- A `foldl` preserves any invariant its step preserves. -/
theorem foldl_preserves {σ α : Type} {P : σ → Prop} {f : σ → α → σ}
    (hf : ∀ st x, P st → P (f st x)) :
    ∀ (l : List α) (st : σ), P st → P (l.foldl f st)
  | [], _, h => h
  | x :: xs, st, h => foldl_preserves hf xs (f st x) (hf st x h)

/-- `parse_as400_audit` is the filter of qualifying lines, parsed. -/
theorem parse_as400_eq (lines : List Str) :
    parse_as400_audit lines =
      (lines.filter fun l => ¬ (pyStrip l).length < 70).map as400Entry := by
  induction lines with
  | nil => rfl
  | cons l ls ih =>
    by_cases h : (pyStrip l).length < 70 <;>
      simp [parse_as400_audit, List.foldr_cons, List.filter_cons, h, Nat.not_lt.1, Nat.not_lt] <;>
      simpa [parse_as400_audit, Nat.not_lt, h] using ih

/-- The 10-character header line of the C4 scenario. -/
def as400HeaderLine : Str := str "HEADER TXT"

/-- An 85-character well-formed fixed-width data line
(date column `04/17/25`). -/
def as400DataLine : Str :=
  str "R001 T001 04/17/25 TRACK12345678 MEMBER12345678 ITEM1234567DP01 2  12.99    Y Y AUDIT"

/-- C4: for every input to the fixed-width log parser, a line whose
trimmed length is below 70 contributes no entry — the output is
exactly the qualifying lines, parsed in order — and the scenario of
one 85-character data line plus one 10-character header line yields
exactly the data line's entry. -/
theorem c4_short_lines_skipped :
    (∀ lines : List Str, parse_as400_audit lines =
      (lines.filter fun l => ¬ (pyStrip l).length < 70).map as400Entry) ∧
    parse_as400_audit [as400HeaderLine, as400DataLine] = [as400Entry as400DataLine] := by
  refine ⟨parse_as400_eq, ?_⟩
  decide

/-- C5: the exporters parse a digit string with a trailing minus sign
as the negated integer, a plain digit string as that integer, and
default any other token to 1. -/
theorem c5_quantity_parsing :
    exportQuantity (str "3-") = -3 ∧ exportQuantity (str "5") = 5 ∧
    ∀ raw : Str,
      ¬ (pyEndsWith (str "-") (pyStrip raw) ∧ isDigitStr (pyStrip raw).dropLast) →
      ¬ isDigitStr (pyStrip raw) →
      exportQuantity raw = 1 := by
  refine ⟨by decide, by decide, ?_⟩
  intro raw h1 h2
  simp only [exportQuantity]
  rw [if_neg h1, if_neg (by simpa using h2)]

/-- Witness for C5 at concrete tokens. -/
theorem c5_witness :
    exportQuantity (str "3-") = -3 ∧ exportQuantity (str "5") = 5 ∧
    exportQuantity (str "N/A") = 1 :=
  ⟨c5_quantity_parsing.1, c5_quantity_parsing.2.1,
   c5_quantity_parsing.2.2 (str "N/A") (by decide) (by decide)⟩

/-! ## Invariants of the extraction passes -/

/-- Invariant of the extraction state: every accumulated record's
item number is in the de-duplication set, item numbers are pairwise
distinct, and no record carries a period yet. -/
def StateOk (st : ExtractState) : Prop :=
  (∀ r ∈ st.2, r.item_number ∈ st.1) ∧
  st.2.Pairwise (fun a b => a.item_number ≠ b.item_number) ∧
  (∀ r ∈ st.2, r.period = none)

theorem stateOk_nil : StateOk ([], []) :=
  ⟨fun _ h => absurd h (List.not_mem_nil _), List.Pairwise.nil, fun _ h => absurd h (List.not_mem_nil _)⟩

/-- Appending a record guarded by the de-duplication set preserves
the invariant. -/
theorem stateOk_add {st : ExtractState} {n : Str} {r : OcrItem}
    (h : StateOk st) (hn : ¬ n ∈ st.1) (hr : r.item_number = n) (hp : r.period = none) :
    StateOk (n :: st.1, st.2 ++ [r]) := by
  obtain ⟨h1, h2, h3⟩ := h
  refine ⟨?_, ?_, ?_⟩
  · intro x hx
    rcases List.mem_append.1 hx with hx | hx
    · exact List.mem_cons_of_mem _ (h1 x hx)
    · rw [List.mem_singleton.1 hx, hr]; exact List.mem_cons_self _ _
  · refine List.pairwise_append.2 ⟨h2, List.pairwise_singleton _ _, ?_⟩
    intro a ha b hb
    rw [List.mem_singleton.1 hb]
    intro hab
    exact hn (by rw [← hr, ← hab]; exact h1 a ha)
  · intro x hx
    rcases List.mem_append.1 hx with hx | hx
    · exact h3 x hx
    · rw [List.mem_singleton.1 hx]; exact hp

theorem tierAItem_ok (lp dp : RE) (rd : Option Str) (line : Str) (st : ExtractState)
    (h : StateOk st) : StateOk (tierAItem lp dp rd line st) := by
  unfold tierAItem
  cases search12 lp line with
  | none => exact h
  | some g =>
    dsimp only
    by_cases hm : g.1 ∈ st.1
    · rw [if_pos hm]; exact h
    · rw [if_neg hm]; exact stateOk_add h hm rfl rfl

theorem tierA_ok (rd : Option Str) (lines : List Str) : StateOk (tierA rd lines) :=
  foldl_preserves
    (fun st line hst =>
      tierAItem_ok operatorPat operatorDescPat rd line _
        (tierAItem_ok memberPat memberDescPat rd line st hst))
    lines ([], []) stateOk_nil

theorem tierBLine_ok (rd : Option Str) (line : Str) (st : ExtractState)
    (h : StateOk st) : StateOk (tierBLine rd st line) := by
  unfold tierBLine
  by_cases h20 : line.length < 20
  · rw [if_pos h20]; exact h
  · rw [if_neg h20]
    dsimp only
    by_cases he : findall item68Pat line = [] ∨ findall pricePat line = []
    · rw [if_pos he]; exact h
    · rw [if_neg he]
      refine foldl_preserves (fun st n hst => ?_) _ st h
      by_cases hm : n ∈ st.1
      · rw [if_pos hm]; exact hst
      · rw [if_neg hm]; exact stateOk_add hst hm rfl rfl

theorem tierB_ok (rd : Option Str) (lines : List Str) (st : ExtractState)
    (h : StateOk st) : StateOk (tierB rd lines st) :=
  foldl_preserves (fun st line hst => tierBLine_ok rd line st hst) lines st h

theorem tierC_ok (rd : Option Str) (text : Str) (st : ExtractState)
    (h : StateOk st) : StateOk (tierC rd text st) := by
  unfold tierC
  refine foldl_preserves (fun st i hst => ?_) _ st h
  dsimp only
  by_cases hlen : (findall item68Pat text).length ≤ i
  · rw [if_pos hlen]; exact hst
  · rw [if_neg hlen]
    by_cases hm : (findall item68Pat text).getD i [] ∈ st.1
    · rw [if_pos hm]; exact hst
    · rw [if_neg hm]; exact stateOk_add hst hm rfl rfl

/-- The three passes yield pairwise-distinct item numbers and no
periods. -/
theorem extractTiers_ok (text : Str) :
    (extractTiers text).Pairwise (fun a b => a.item_number ≠ b.item_number) ∧
    ∀ r ∈ extractTiers text, r.period = none := by
  unfold extractTiers
  dsimp only
  split
  · exact ⟨(tierA_ok _ _).2.1, (tierA_ok _ _).2.2⟩
  · split
    · exact ⟨(tierC_ok _ _ _ (tierB_ok _ _ _ (tierA_ok _ _))).2.1,
             (tierC_ok _ _ _ (tierB_ok _ _ _ (tierA_ok _ _))).2.2⟩
    · exact ⟨(tierB_ok _ _ _ (tierA_ok _ _)).2.1, (tierB_ok _ _ _ (tierA_ok _ _)).2.2⟩

/-- `assignPeriod` does not change the item number. -/
theorem assignPeriod_item_number (r : OcrItem) :
    (assignPeriod r).item_number = r.item_number := by
  unfold assignPeriod
  split
  · dsimp only; split <;> rfl
  · rfl

/-- `assignPeriod` does not change the date. -/
theorem assignPeriod_date (r : OcrItem) : (assignPeriod r).date = r.date := by
  unfold assignPeriod
  split
  · dsimp only; split <;> rfl
  · rfl

/-- What `assignPeriod` does to a record that has no period yet. -/
theorem assignPeriod_period {r : OcrItem} (hp : r.period = none) :
    ((assignPeriod r).date = [] → (assignPeriod r).period = none) ∧
    ('/' ∈ (assignPeriod r).date →
      isDigitStr ((assignPeriod r).date.takeWhile fun c => c ≠ '/') →
      (assignPeriod r).period =
        some ('P' :: zfill 2 ((assignPeriod r).date.takeWhile fun c => c ≠ '/'))) := by
  rw [assignPeriod_date]
  unfold assignPeriod
  by_cases hd : r.date ≠ [] ∧ '/' ∈ r.date
  · rw [if_pos hd]
    dsimp only
    by_cases hm : isDigitStr (r.date.takeWhile fun c => c ≠ '/')
    · rw [if_pos hm]
      exact ⟨fun he => absurd he hd.1, fun _ _ => rfl⟩
    · rw [if_neg hm]
      exact ⟨fun _ => hp, fun _ hm2 => absurd hm2 hm⟩
  · rw [if_neg hd]
    refine ⟨fun _ => hp, fun hs hm => ?_⟩
    exact absurd ⟨List.ne_nil_of_mem hs, hs⟩ hd

/-- The records of `extract_data_from_text` are each `assignPeriod`
of a record with no period. -/
theorem extract_mem {now : Now} {text : Str} {r : OcrItem}
    (h : r ∈ extract_data_from_text now text) :
    ∃ r₀, r₀.period = none ∧ r = assignPeriod r₀ := by
  unfold extract_data_from_text assignPeriods at h
  dsimp only at h
  rcases List.mem_map.1 h with ⟨r₀, hr₀, hr⟩
  refine ⟨r₀, ?_, hr.symm⟩
  by_cases he : extractTiers text = []
  · rw [if_pos he] at hr₀
    rw [List.mem_singleton.1 hr₀]; rfl
  · rw [if_neg he] at hr₀
    exact (extractTiers_ok text).2 r₀ hr₀

/-- A fixed timestamp for concrete evaluations. -/
def now0 : Now := ⟨str "04/17/25", str "13:49:41"⟩

/-- C7: the Pattern-Based Field Extractor is a pure function of the
text (and the clock values used only by the default record), so two
runs on identical input are identical, and within one run no item
number occurs in two returned records. -/
theorem c7_idempotent_and_distinct (now : Now) (text : Str) :
    extract_data_from_text now text = extract_data_from_text now text ∧
    (extract_data_from_text now text).Pairwise
      (fun a b => a.item_number ≠ b.item_number) := by
  refine ⟨rfl, ?_⟩
  unfold extract_data_from_text assignPeriods
  dsimp only
  rw [List.pairwise_map]
  by_cases he : extractTiers text = []
  · rw [if_pos he]; exact List.pairwise_singleton _ _
  · rw [if_neg he]
    refine ((extractTiers_ok text).1).imp ?_
    intro a b hab
    rw [assignPeriod_item_number, assignPeriod_item_number]
    exact hab

/-- C10: the extractor never returns an empty list: when the three
passes produce nothing the hard-coded `12345678` default record is
the single result. -/
theorem c10_never_empty (now : Now) (text : Str) :
    extract_data_from_text now text ≠ [] ∧
    (extractTiers text = [] →
      extract_data_from_text now text = [assignPeriod (mkDefaultItem now)]) := by
  constructor
  · unfold extract_data_from_text assignPeriods
    dsimp only
    by_cases he : extractTiers text = []
    · rw [if_pos he]; simp
    · rw [if_neg he]; simpa using he
  · intro he
    unfold extract_data_from_text assignPeriods
    dsimp only
    rw [if_pos he]
    rfl

/-- Witness for C10: on empty input (no digit runs at all) the result
is exactly the default record, whose item number is `12345678`. -/
theorem c10_witness :
    extract_data_from_text now0 [] = [assignPeriod (mkDefaultItem now0)] ∧
    extract_data_from_text now0 [] ≠ [] ∧
    (extract_data_from_text now0 []).map (fun r => r.item_number) = [str "12345678"] :=
  ⟨(c10_never_empty now0 []).2 (by decide), (c10_never_empty now0 []).1, by decide⟩

/-- C2 fails on the code: `extract_data_from_text`'s whole-document
brute-force pass applies no plausibility filter, so on a text whose
only candidates are the date-shaped run `20230415` (resp. the
leading-zero run `0123456`) next to a price, that run is emitted as
the record's `item_number`. -/
theorem c2_counterexample :
    (extract_data_from_text now0 (str "20230415 1.23")).map (fun r => r.item_number) =
      [str "20230415"] ∧
    (extract_data_from_text now0 (str "0123456 7.89")).map (fun r => r.item_number) =
      [str "0123456"] ∧
    (str "20230415").length = 8 ∧ pyStartsWith (str "20") (str "20230415") ∧
    pyStartsWith (str "0") (str "0123456") := by
  refine ⟨?_, ?_, by decide, by decide, by decide⟩ <;> decide

/-- C2 amended: the date-shape and leading-zero plausibility filters
live in the upload handler's own whole-document scan
(`app.upload_file`), not in the extractor: no item number that scan
keeps is an 8-digit run starting with `19`/`20`, and none has a
leading zero. -/
theorem c2_amended (text : Str) (m : Str) (h : m ∈ uploadItemNumbers text) :
    ¬ (m.length = 8 ∧ (pyStartsWith (str "19") m ∨ pyStartsWith (str "20") m)) ∧
    ¬ pyStartsWith (str "0") m := by
  have hf : ∀ (ms : List Str) (cnt : Nat) (acc : List Str),
      (∀ a ∈ acc,
        ¬ (a.length = 8 ∧ (pyStartsWith (str "19") a ∨ pyStartsWith (str "20") a)) ∧
        ¬ pyStartsWith (str "0") a) →
      ∀ x ∈ filterMatches text ms cnt acc,
        ¬ (x.length = 8 ∧ (pyStartsWith (str "19") x ∨ pyStartsWith (str "20") x)) ∧
        ¬ pyStartsWith (str "0") x := by
    intro ms
    induction ms with
    | nil => intro cnt acc hacc x hx; exact hacc x hx
    | cons a rest ih =>
      intro cnt acc hacc x hx
      unfold filterMatches at hx
      by_cases h50 : cnt + 1 > 50
      · rw [if_pos h50] at hx; exact hacc x hx
      · rw [if_neg h50] at hx
        by_cases hdate : a.length = 8 ∧ (pyStartsWith (str "19") a ∨ pyStartsWith (str "20") a)
        · rw [if_pos hdate] at hx; exact ih (cnt + 1) acc hacc x hx
        · rw [if_neg hdate] at hx
          by_cases hzero : pyStartsWith (str "0") a
          · rw [if_pos hzero] at hx; exact ih (cnt + 1) acc hacc x hx
          · rw [if_neg hzero] at hx
            by_cases hlbl : skipByLabel text a = true
            · rw [if_pos hlbl] at hx; exact ih (cnt + 1) acc hacc x hx
            · rw [if_neg hlbl] at hx
              dsimp only at hx
              have hacc2 : ∀ b ∈ acc ++ [a],
                  ¬ (b.length = 8 ∧
                      (pyStartsWith (str "19") b ∨ pyStartsWith (str "20") b)) ∧
                  ¬ pyStartsWith (str "0") b := by
                intro b hb
                rcases List.mem_append.1 hb with hb | hb
                · exact hacc b hb
                · rw [List.mem_singleton.1 hb]
                  exact ⟨by simpa using hdate, by simpa using hzero⟩
              by_cases h10 : 10 ≤ (acc ++ [a]).length
              · rw [if_pos h10] at hx; exact hacc2 x hx
              · rw [if_neg h10] at hx; exact ih (cnt + 1) (acc ++ [a]) hacc2 x hx
  have hdedup : ∀ (seen l : List Str) (x : Str), x ∈ dedupFirst.go seen l → x ∈ l := by
    intro seen l
    induction l generalizing seen with
    | nil => intro x hx; exact absurd hx (List.not_mem_nil _)
    | cons a rest ih =>
      intro x hx
      unfold dedupFirst.go at hx
      by_cases hm : a ∈ seen
      · rw [if_pos hm] at hx
        exact List.mem_cons_of_mem _ (ih seen x hx)
      · rw [if_neg hm] at hx
        rcases List.mem_cons.1 hx with hx | hx
        · rw [hx]; exact List.mem_cons_self _ _
        · exact List.mem_cons_of_mem _ (ih (a :: seen) x hx)
  unfold uploadItemNumbers at h
  dsimp only at h
  have hmem : m ∈ dedupFirst (filterMatches text
      (findall78b text ++ findall6b text) 0 []) := by
    by_cases hgt : 10 < (dedupFirst (filterMatches text
        (findall78b text ++ findall6b text) 0 [])).length
    · rw [if_pos hgt] at h; exact List.take_subset _ _ h
    · rw [if_neg hgt] at h; exact h
  exact hf _ 0 [] (fun a ha => absurd ha (List.not_mem_nil _)) m
    (hdedup [] _ m hmem)

/-- Witness for C2's amended statement: on a text holding a genuine
item number, a date-shaped run and a leading-zero run, the handler
keeps only the genuine number, and it satisfies both filters. -/
theorem c2_witness :
    uploadItemNumbers (str "8157432 20230415 0123456") = [str "8157432"] ∧
    (¬ ((str "8157432").length = 8 ∧
        (pyStartsWith (str "19") (str "8157432") ∨
         pyStartsWith (str "20") (str "8157432"))) ∧
     ¬ pyStartsWith (str "0") (str "8157432")) :=
  ⟨by decide, c2_amended (str "8157432 20230415 0123456") (str "8157432") (by decide)⟩

/-- An 85-character fixed-width line whose date column holds the
single-digit-month date `4/17/25`. -/
def as400SingleMonthLine : Str :=
  str "R001 T001 4/17/25  TRACK12345678 MEMBER12345678 ITEM1234567DP01 2  12.99    Y Y AUDIT"

/-- C6 fails on the code: the AS400 parser derives the period from
the first two characters of the date, not from its `/`-leading
token, so the date `4/17/25` — which contains `/` and whose leading
token `4` zero-pads to `04` — yields period `P00`, not `P04`. -/
theorem c6_counterexample :
    (parse_as400_audit [as400SingleMonthLine]).map (fun e => (e.date, e.period)) =
      [(str "4/17/25", str "P00")] ∧
    '/' ∈ str "4/17/25" ∧
    'P' :: zfill 2 ((str "4/17/25").takeWhile fun c => c ≠ '/') = str "P04" ∧
    str "P00" ≠ str "P04" := by
  refine ⟨by decide, by decide, by decide, by decide⟩

/-- C6 amended: an AS400 entry's period is `P` + the first two
characters of its date zero-padded when they form a digit string,
else `P00` (hence `04/17/25 ↦ P04` and `"" ↦ P00`, but `4/17/25 ↦
P00`); a record of the pattern-based extractor whose date contains
`/` with an all-digit leading token gets `P` + that token
zero-padded, and a record with an empty date carries no period key,
which consumers read back as the default `P00`. -/
theorem c6_amended :
    (∀ (lines : List Str) e, e ∈ parse_as400_audit lines → e.period = as400Period e.date) ∧
    as400Period (str "04/17/25") = str "P04" ∧
    as400Period [] = str "P00" ∧
    (∀ (now : Now) (text : Str) r, r ∈ extract_data_from_text now text →
      (r.date = [] → r.period = none ∧ r.period.getD (str "P00") = str "P00") ∧
      ('/' ∈ r.date → isDigitStr (r.date.takeWhile fun c => c ≠ '/') →
        r.period = some ('P' :: zfill 2 (r.date.takeWhile fun c => c ≠ '/')))) := by
  refine ⟨?_, by decide, by decide, ?_⟩
  · intro lines e he
    rw [parse_as400_eq] at he
    rcases List.mem_map.1 he with ⟨l, _, hl⟩
    rw [← hl]
    rfl
  · intro now text r hr
    rcases extract_mem hr with ⟨r₀, hp, hr₀⟩
    rcases assignPeriod_period hp with ⟨h1, h2⟩
    subst hr₀
    exact ⟨fun hd => ⟨h1 hd, by rw [h1 hd]; rfl⟩, h2⟩

/-- A text the extractor turns into one record dated `04/17/25`. -/
def c6WitnessText : Str := str "Date: 04/17/25\n1839592 OK CONTROLLER TAKE 59.98"

/-- The record the extractor produces for `c6WitnessText`. -/
def c6WitnessRec : OcrItem :=
  { item_number := str "1839592", price := some (str "59.98"),
    date := str "04/17/25", time := [],
    description := str "Item 1839592", period := some (str "P04") }

/-- Witness for C6's amended statement at concrete inputs: the
`04/17/25` record of the extractor gets period `P04`, and the AS400
entry of the single-digit-month line follows `as400Period`. -/
theorem c6_witness :
    c6WitnessRec ∈ extract_data_from_text now0 c6WitnessText ∧
    c6WitnessRec.period =
      some ('P' :: zfill 2 (c6WitnessRec.date.takeWhile fun c => c ≠ '/')) ∧
    (as400Entry as400SingleMonthLine).period =
      as400Period (as400Entry as400SingleMonthLine).date :=
  ⟨by decide,
   (c6_amended.2.2.2 now0 c6WitnessText c6WitnessRec (by decide)).2 (by decide) (by decide),
   c6_amended.1 [as400SingleMonthLine] _ (by decide)⟩

/-- C8: the AI normalizer strips every character that is not an
ASCII letter, digit or dash from the item number
(`AB-12;34 ↦ AB-1234`), and drops any item whose cleaned item number
is empty. -/
theorem c8_ai_cleaning :
    aiNormalize [⟨str "AB-12;34", str "9.99", [], []⟩] =
      [⟨str "AB-1234", str "9.99", [], [], str "P00"⟩] ∧
    aiNormalize [⟨str ";;;", str "1.00", [], []⟩] = [] ∧
    ∀ (items : List RawAiItem) r, r ∈ aiNormalize items →
      r.item_number ≠ [] ∧ ∀ c ∈ r.item_number, isAlnumDash c := by
  refine ⟨by decide, by decide, ?_⟩
  intro items r hr
  unfold aiNormalize at hr
  refine foldl_preserves
    (P := fun acc => ∀ r ∈ acc, r.item_number ≠ [] ∧ ∀ c ∈ r.item_number, isAlnumDash c)
    (fun acc item hacc => ?_) items [] (fun r h => absurd h (List.not_mem_nil _)) r hr
  dsimp only
  by_cases hc : cleanItemNumber item.item_number ≠ []
  · rw [if_pos hc]
    intro x hx
    rcases List.mem_append.1 hx with hx | hx
    · exact hacc x hx
    · rw [List.mem_singleton.1 hx]
      exact ⟨hc, fun c hcs => (List.mem_filter.1 hcs).2⟩
  · rw [if_neg hc]; exact hacc

/-- Witness for C8 at the claim's concrete scenario. -/
theorem c8_witness :
    aiNormalize [⟨str "AB-12;34", str "9.99", [], []⟩] =
      [⟨str "AB-1234", str "9.99", [], [], str "P00"⟩] ∧
    ((str "AB-1234" : Str) ≠ [] ∧ ∀ c ∈ (str "AB-1234" : Str), isAlnumDash c) :=
  ⟨c8_ai_cleaning.1,
   by
    have := c8_ai_cleaning.2.2 [⟨str "AB-12;34", str "9.99", [], []⟩]
      ⟨str "AB-1234", str "9.99", [], [], str "P00"⟩ (by decide)
    exact this⟩

/-! ## C9: the training store only appends -/

/-- `d` grows to `d'`: each stored list of `d` is an unchanged prefix
of the corresponding list of `d'`. -/
def GrowsTo (d d' : TrainingData) : Prop :=
  d.examples <+: d'.examples ∧ d.patterns <+: d'.patterns ∧ d.regions <+: d'.regions

theorem growsTo_refl (d : TrainingData) : GrowsTo d d :=
  ⟨List.prefix_rfl, List.prefix_rfl, List.prefix_rfl⟩

theorem growsTo_trans {a b c : TrainingData} (h1 : GrowsTo a b) (h2 : GrowsTo b c) :
    GrowsTo a c :=
  ⟨h1.1.trans h2.1, h1.2.1.trans h2.2.1, h1.2.2.trans h2.2.2⟩

theorem add_example_grows (fe : Bool) (now n ip : Str) (desc : Option Str) (so : Bool)
    (d : TrainingData) : GrowsTo d (add_example fe now n ip desc so d).1 := by
  unfold add_example
  by_cases h : ¬ fe = true
  · rw [if_pos h]; exact growsTo_refl d
  · rw [if_neg h]
    exact ⟨List.prefix_append _ _, List.prefix_rfl, List.prefix_rfl⟩

theorem add_pattern_grows (now pt pv : Str) (so : Bool) (d : TrainingData) :
    GrowsTo d (add_pattern now pt pv so d).1 :=
  ⟨List.prefix_rfl, List.prefix_append _ _, List.prefix_rfl⟩

theorem add_region_grows (now n : Str) (loc : RelCoords) (so : Bool) (d : TrainingData) :
    GrowsTo d (add_region now n loc so d).1 :=
  ⟨List.prefix_rfl, List.prefix_rfl, List.prefix_append _ _⟩

theorem maybeAddPattern_grows (nowIso pt chars : Str) (so : Bool) (d : TrainingData) :
    GrowsTo d (maybeAddPattern nowIso pt chars so d) := by
  unfold maybeAddPattern
  split
  · exact add_pattern_grows _ _ _ _ _
  · exact growsTo_refl d

theorem analyzeRegionStep_grows (nowIso nowCompact : Str) (so : Bool) (n : Str)
    (height width : Nat) (d : TrainingData) (bt : (Str × Nat × Nat × Nat × Nat) × Str) :
    GrowsTo d (analyzeRegionStep nowIso nowCompact so n height width d bt) := by
  obtain ⟨⟨name, x, y, w, hh⟩, t⟩ := bt
  unfold analyzeRegionStep
  dsimp only
  split
  · exact add_region_grows _ _ _ _ _
  · exact growsTo_refl d

theorem analyzePatternStep_grows (nowIso : Str) (so : Bool) (n : Str)
    (d : TrainingData) (line : Str) :
    GrowsTo d (analyzePatternStep nowIso so n d line) := by
  unfold analyzePatternStep
  dsimp only
  split
  · exact growsTo_trans (maybeAddPattern_grows _ _ _ _ _) (maybeAddPattern_grows _ _ _ _ _)
  · exact growsTo_refl d

theorem analyze_grows (fe imgOk : Bool) (h w : Nat) (bandTexts : List Str)
    (allText : Str) (nowIso nowCompact : Str) (so : Bool) (n ip : Str)
    (d : TrainingData) :
    GrowsTo d (analyze_receipt_for_training fe imgOk h w bandTexts allText
      nowIso nowCompact so n ip d) := by
  unfold analyze_receipt_for_training
  by_cases h1 : ¬ fe = true
  · rw [if_pos h1]; exact growsTo_refl d
  · rw [if_neg h1]
    by_cases h2 : ¬ imgOk = true
    · rw [if_pos h2]; exact growsTo_refl d
    · rw [if_neg h2]
      dsimp only
      apply growsTo_trans
        (b := (splitOnChar '\n' allText).foldl (analyzePatternStep nowIso so n)
          (((analyzeBands h w).zip bandTexts).foldl
            (analyzeRegionStep nowIso nowCompact so n h w) d))
      · apply growsTo_trans
          (b := ((analyzeBands h w).zip bandTexts).foldl
            (analyzeRegionStep nowIso nowCompact so n h w) d)
        · exact foldl_preserves (P := fun st => GrowsTo d st)
            (fun st bt hst =>
              growsTo_trans hst (analyzeRegionStep_grows nowIso nowCompact so n h w st bt))
            _ _ (growsTo_refl d)
        · exact foldl_preserves
            (P := fun st => GrowsTo (((analyzeBands h w).zip bandTexts).foldl
              (analyzeRegionStep nowIso nowCompact so n h w) d) st)
            (fun st line hst =>
              growsTo_trans hst (analyzePatternStep_grows nowIso so n st line))
            _ _ (growsTo_refl _)
      · exact add_example_grows _ _ _ _ _ _ _

/-- C9: each mutating operation of the training store — `add_example`,
`add_pattern`, `add_region`, and `analyze_receipt_for_training` with
its auto-adds — leaves the previous `examples`, `patterns` and
`regions` lists as unchanged prefixes of the new ones. -/
theorem c9_append_only :
    (∀ fe now n ip desc so d, GrowsTo d (add_example fe now n ip desc so d).1) ∧
    (∀ now pt pv so d, GrowsTo d (add_pattern now pt pv so d).1) ∧
    (∀ now n loc so d, GrowsTo d (add_region now n loc so d).1) ∧
    (∀ fe imgOk h w bandTexts allText nowIso nowCompact so n ip d,
      GrowsTo d (analyze_receipt_for_training fe imgOk h w bandTexts allText
        nowIso nowCompact so n ip d)) :=
  ⟨add_example_grows, add_pattern_grows, add_region_grows, analyze_grows⟩

/-! ## C1 and C3: the orchestrator's cascade behavior -/

/-- C1 fails on the code: when strategies 1-4 all raise, time out or
yield nothing usable, `process_receipt_image` does **not** return a
placeholder with `success=True` — it returns the failure tuple
`(False, "No item numbers could be extracted from the image")`.
Here: the AI call raises, direct extraction returns zero items, and
both OCR strategies return their error strings. -/
theorem c1_counterexample :
    process_receipt_image 4 now0 (SOut.exn (str "AI quota exceeded")) (SOut.ok [])
      (SOut.ok (str "Error: OCR processing timed out after 10 seconds."))
      (SOut.ok (str "Error: Quick OCR returned empty result")) =
      ⟨false, Sum.inr noExtractMsg, [.ai, .direct, .ocr, .quick]⟩ ∧
    (process_receipt_image 4 now0 (SOut.exn (str "AI quota exceeded")) (SOut.ok [])
      (SOut.ok (str "Error: OCR processing timed out after 10 seconds."))
      (SOut.ok (str "Error: Quick OCR returned empty result"))).success = false := by
  refine ⟨by decide, by decide⟩

/-- C1 amended: when the AI strategy yields no items, direct
extraction yields none, and neither OCR strategy produces usable
text, the orchestrator returns `success=False` with the
no-extraction message; a later strategy that raises or times out
likewise produces a failure tuple.  The single-placeholder,
`success=True` outcome arises one level lower: when an OCR strategy
does return usable text in which the extractor's passes find
nothing, `extract_data_from_text` itself supplies exactly the one
placeholder record (item number `12345678`) and the orchestrator
returns it with `success=True`. -/
theorem c1_amended (month : Nat) (now : Now) (aiOut : SOut (List AiRec))
    (hA : ∀ l, aiOut = SOut.ok l → l = []) (ocrText quickText : Str) :
    (¬ (ocrText ≠ [] ∧ ¬ containsSubstr (str "Error") ocrText) →
     ¬ (quickText ≠ [] ∧ ¬ pyStartsWith (str "Error:") quickText) →
      process_receipt_image month now aiOut (SOut.ok []) (SOut.ok ocrText)
          (SOut.ok quickText) =
        ⟨false, Sum.inr noExtractMsg, [.ai, .direct, .ocr, .quick]⟩) ∧
    (∀ e, process_receipt_image month now aiOut (SOut.exn e) (SOut.ok ocrText)
        (SOut.ok quickText) =
      ⟨false, Sum.inr (errProcessingMsg e), [.ai, .direct]⟩) ∧
    (process_receipt_image month now aiOut SOut.timeout (SOut.ok ocrText)
        (SOut.ok quickText) =
      ⟨false, Sum.inr timeoutMsg, [.ai, .direct]⟩) ∧
    ((ocrText ≠ [] ∧ ¬ containsSubstr (str "Error") ocrText) → extractTiers ocrText = [] →
      process_receipt_image month now aiOut (SOut.ok []) (SOut.ok ocrText)
          (SOut.ok quickText) =
        ⟨true, Sum.inl (.ocr [assignPeriod (mkDefaultItem now)]), [.ai, .direct, .ocr]⟩) := by
  have hcascade : ∀ dOut,
      process_receipt_image month now aiOut dOut (SOut.ok ocrText) (SOut.ok quickText) =
      cascadeDirect month now dOut (SOut.ok ocrText) (SOut.ok quickText) [.ai] := by
    intro dOut
    unfold process_receipt_image
    cases haiOut : aiOut with
    | ok l => rw [hA l haiOut]; rfl
    | exn e => rfl
    | timeout => rfl
  refine ⟨?_, ?_, ?_, ?_⟩
  · intro hocr hquick
    rw [hcascade]
    unfold cascadeDirect cascadeOcr cascadeQuick
    dsimp only
    rw [if_neg (by simp), if_neg hocr, if_neg hquick]
    rfl
  · intro e; rw [hcascade]; rfl
  · rw [hcascade]; rfl
  · intro hocr htiers
    rw [hcascade]
    unfold cascadeDirect cascadeOcr
    dsimp only
    rw [if_neg (by simp), if_pos hocr]
    have hempty : extract_data_from_text now ocrText = [assignPeriod (mkDefaultItem now)] := by
      unfold extract_data_from_text assignPeriods
      dsimp only
      rw [if_pos htiers]
      rfl
    rw [hempty, if_pos (by simp)]
    rfl

/-- Witness for C1's amended statement: a concrete all-fail run
returns the failure tuple, and a concrete usable-but-empty OCR text
returns the one placeholder record with `success=True`. -/
theorem c1_witness :
    process_receipt_image 4 now0 (SOut.exn (str "AI down")) (SOut.ok [])
        (SOut.ok (str "Error: x")) (SOut.ok []) =
      ⟨false, Sum.inr noExtractMsg, [.ai, .direct, .ocr, .quick]⟩ ∧
    process_receipt_image 4 now0 (SOut.exn (str "AI down")) (SOut.ok [])
        (SOut.ok (str "no digit runs here")) (SOut.ok []) =
      ⟨true, Sum.inl (.ocr [assignPeriod (mkDefaultItem now0)]), [.ai, .direct, .ocr]⟩ :=
  ⟨(c1_amended 4 now0 (SOut.exn (str "AI down")) (fun l h => by cases h) (str "Error: x")
      []).1 (by decide) (by decide),
   (c1_amended 4 now0 (SOut.exn (str "AI down")) (fun l h => by cases h)
      (str "no digit runs here") []).2.2.2 (by decide) (by decide)⟩

/-- C3: whenever the AI strategy returns at least one item, both
orchestrators return exactly the formatted AI records with no later
strategy reached; and in `process_receipt_image`, when the AI yields
nothing and direct extraction returns a non-empty list, exactly the
formatted direct records are returned with the OCR strategies
unreached — the first non-empty result wins, with no merging. -/
theorem c3_short_circuit (month : Nat) (now : Now) (ai_items : List AiRec)
    (h : ai_items ≠ []) (directOut : SOut (List Str)) (ocrOut quickOut : SOut Str)
    (directOut2 : SOut (List DirRec)) :
    process_receipt_image month now (SOut.ok ai_items) directOut ocrOut quickOut =
      ⟨true, Sum.inl (.ai (formatAiItems month ai_items)), [.ai]⟩ ∧
    process_receipt_image_safe month (SOut.ok ai_items) directOut2 =
      ⟨true, Sum.inl (.ai (formatAiItemsSafe month ai_items)), [.ai]⟩ ∧
    (∀ (aiOut : SOut (List AiRec)), (∀ l, aiOut = SOut.ok l → l = []) →
      ∀ direct_items : List Str, direct_items ≠ [] →
        process_receipt_image month now aiOut (SOut.ok direct_items) ocrOut quickOut =
          ⟨true, Sum.inl (.direct (formatDirectItems month direct_items)), [.ai, .direct]⟩) := by
  refine ⟨?_, ?_, ?_⟩
  · unfold process_receipt_image
    dsimp only
    rw [if_pos h]
  · unfold process_receipt_image_safe
    dsimp only
    rw [if_pos h]
  · intro aiOut hA direct_items hd
    have : process_receipt_image month now aiOut (SOut.ok direct_items) ocrOut quickOut =
        cascadeDirect month now (SOut.ok direct_items) ocrOut quickOut [.ai] := by
      unfold process_receipt_image
      cases haiOut : aiOut with
      | ok l => rw [hA l haiOut]; rfl
      | exn e => rfl
      | timeout => rfl
    rw [this]
    unfold cascadeDirect
    dsimp only
    rw [if_pos hd]
    rfl

/-- Witness for C3 at a concrete AI result. -/
theorem c3_witness :
    process_receipt_image 4 now0
        (SOut.ok [⟨str "9900099", str "499.99", str "04/17/25", str "13:49:41", str "P00"⟩])
        (SOut.ok []) (SOut.ok []) (SOut.ok []) =
      ⟨true, Sum.inl (.ai (formatAiItems 4
        [⟨str "9900099", str "499.99", str "04/17/25", str "13:49:41", str "P00"⟩])), [.ai]⟩ ∧
    process_receipt_image_safe 4
        (SOut.ok [⟨str "9900099", str "499.99", str "04/17/25", str "13:49:41", str "P00"⟩])
        (SOut.ok []) =
      ⟨true, Sum.inl (.ai (formatAiItemsSafe 4
        [⟨str "9900099", str "499.99", str "04/17/25", str "13:49:41", str "P00"⟩])), [.ai]⟩ :=
  ⟨(c3_short_circuit 4 now0 _ (by decide) (SOut.ok []) (SOut.ok []) (SOut.ok [])
      (SOut.ok [])).1,
   (c3_short_circuit 4 now0 _ (by decide) (SOut.ok []) (SOut.ok []) (SOut.ok [])
      (SOut.ok [])).2.1⟩

end RefundAudit
